import Mathlib

/-!
# A verification model of the JBOF dataset library (`jbof.py`)

JBOF stores a dataset as a directory tree: a dataset directory holds a
`_metadata.json` file and one subdirectory per item; each item directory holds
its own `_metadata.json` plus, per array, a payload file (`name.ext`) and a
JSON sidecar (`name.json`).

This file is a shallow embedding of the directory-backed core of `jbof.py`
(classes `DataSet`, `Item`, `Array` and the module-level functions), followed by
theorems about the embedded operations.

Modelling conventions:
* The filesystem is a value (`World`): a list of nodes, each a path (list of
  components) with a kind (file with byte content, or directory), plus the
  process current working directory.  Listing order of a directory is the
  order of its nodes in the list.
* Python exceptions are `PyErr`; an operation that can raise returns `Except`.
  Stateful operations return the state both on success and on failure
  (`Except (PyErr × σ) (α × σ)`), with the failure state reflecting exactly the
  mutations performed before the raise.
* External collaborators (hashlib's md5, json encode/decode, numpy/soundfile/
  scipy codecs, `uuid.uuid1`, `str.format`) are fields of an `PyExt` record and
  are universally quantified in the theorems.
* JSON metadata values are modelled by scalar `JVal`s (null, bool, int,
  string), which cover every value the studied operations inspect; metadata
  objects are association lists with unique keys (Python dicts).
-/

/-- Byte strings (contents of files, binary digests). -/
abbrev Bytes := List Nat

/-- Scalar JSON values, as decoded by `json.load` for the metadata fields the
code inspects. -/
inductive JVal where
  | null
  | bool (b : Bool)
  | num (n : Int)
  | str (s : String)
deriving DecidableEq, Repr

/-- A JSON object / Python dict: association list with the dict's key order. -/
abbrev Jmap := List (String × JVal)

/-- `dict(m, k=v)`: replace the value of `k` in place if present, else append. -/
def Jmap.insertJ (m : Jmap) (k : String) (v : JVal) : Jmap :=
  if (m.lookup k).isSome then m.map (fun kv => if kv.1 = k then (k, v) else kv)
  else m ++ [(k, v)]

/-- `del m[k]` (for a key known present) / building the view without key `k`. -/
def Jmap.eraseJ (m : Jmap) (k : String) : Jmap :=
  m.filter (fun kv => kv.1 ≠ k)

/-- Python exceptions raised by the modelled code paths.  Filesystem errors
carry no payload so that equal failure causes compare equal. -/
inductive PyErr where
  | typeError (msg : String)
  | runtimeError (msg : String)
  | nameError (n : String)
  | keyError (k : String)
  | attributeError
  | fileNotFoundError
  | fileExistsError
  | isADirectoryError
  | notADirectoryError
  | notImplementedError (msg : String)
deriving DecidableEq, Repr

deriving instance DecidableEq for Except

/-- Decoded numpy payload data (a numeric array, flattened). -/
abbrev NpData := List Int

/-- A filesystem node: an absolute path together with its kind. -/
inductive NodeKind where
  | file (content : Bytes)
  | dir
deriving DecidableEq, Repr

structure Node where
  path : List String
  kind : NodeKind
deriving DecidableEq, Repr

/-- `n` names a directory. -/
def Node.isDir (n : Node) : Bool :=
  match n.kind with
  | .dir => true
  | .file _ => false

/-- The node's base name (last path component). -/
def Node.name (n : Node) : String := n.path.getLastD ""

/-- Content of a file node (unused default for directories). -/
def Node.contentD (n : Node) : Bytes :=
  match n.kind with
  | .file c => c
  | .dir => []

/-- The filesystem plus the process's current working directory.  A real
filesystem never holds two entries at the same path; theorems that need this
state it as a hypothesis. -/
structure World where
  cwd : List String
  nodes : List Node
deriving DecidableEq, Repr

namespace World

/-- `Path.exists()`. -/
def exists_ (w : World) (p : List String) : Bool :=
  w.nodes.any (fun n => n.path == p)

/-- `Path.is_dir()`. -/
def is_dir (w : World) (p : List String) : Bool :=
  w.nodes.any (fun n => n.path == p && n.isDir)

/-- `Path.is_file()`. -/
def is_file (w : World) (p : List String) : Bool :=
  w.nodes.any (fun n => n.path == p && !n.isDir)

/-- The child nodes of directory `p`, in listing order. -/
def childNodes (w : World) (p : List String) : List Node :=
  w.nodes.filter (fun n => !n.path.isEmpty && n.path.dropLast == p)

/-- `Path.iterdir()`: raises if `p` is absent or not a directory. -/
def iterdir (w : World) (p : List String) : Except PyErr (List Node) :=
  if w.is_dir p then .ok (w.childNodes p)
  else if w.exists_ p then .error .notADirectoryError
  else .error .fileNotFoundError

/-- `open(p, 'br').read()`: the content of the file at `p`. -/
def readFile (w : World) (p : List String) : Except PyErr Bytes :=
  match w.nodes.find? (fun n => n.path == p) with
  | some n =>
    match n.kind with
    | .file c => .ok c
    | .dir => .error .isADirectoryError
  | none => .error .fileNotFoundError

/-- `Path.mkdir()`: the parent must exist and be a directory; the path must be
fresh.  The new directory is appended to the listing. -/
def mkdir (w : World) (p : List String) : Except PyErr World :=
  if w.exists_ p then .error .fileExistsError
  else if w.is_dir p.dropLast then .ok { w with nodes := w.nodes ++ [⟨p, .dir⟩] }
  else .error .fileNotFoundError

/-- `open(p, 'wt').write(c)` / `numpy.save` / `shutil.copy` target: truncate an
existing file in place, or create a fresh file in an existing directory. -/
def writeFile (w : World) (p : List String) (c : Bytes) : Except PyErr World :=
  match w.nodes.find? (fun n => n.path == p) with
  | some n =>
    match n.kind with
    | .file _ =>
      .ok { w with nodes :=
        w.nodes.map (fun m => if m.path = p then ⟨p, .file c⟩ else m) }
    | .dir => .error .isADirectoryError
  | none =>
    if w.is_dir p.dropLast then .ok { w with nodes := w.nodes ++ [⟨p, .file c⟩] }
    else .error .fileNotFoundError

/-- `Path.unlink()`: removes the file at `p`. -/
def unlink (w : World) (p : List String) : Except PyErr World :=
  match w.nodes.find? (fun n => n.path == p) with
  | some n =>
    match n.kind with
    | .file _ => .ok { w with nodes := w.nodes.filter (fun m => m.path ≠ p) }
    | .dir => .error .isADirectoryError
  | none => .error .fileNotFoundError

/-- `shutil.rmtree(p)`: removes the directory `p` and everything below it. -/
def rmtree (w : World) (p : List String) : Except PyErr World :=
  if w.is_dir p then
    .ok { w with nodes := w.nodes.filter (fun n => ¬ p.isPrefixOf n.path) }
  else if w.exists_ p then .error .notADirectoryError
  else .error .fileNotFoundError

end World

/-- `PurePath.stem`: the final component without its last suffix
(`name[:i]` when `0 < i < len(name) - 1` for `i = name.rfind('.')`). -/
def Path.stem (name : String) : String :=
  let cs := name.toList
  match (cs.reverse.findIdx? (· = '.')) with
  | some ri =>
    let i := cs.length - 1 - ri
    if 0 < i ∧ i < cs.length - 1 then (cs.take i).asString else name
  | none => name

/-- `PurePath.suffix`: the last suffix including the dot, or `""`. -/
def Path.suffix (name : String) : String :=
  let cs := name.toList
  match (cs.reverse.findIdx? (· = '.')) with
  | some ri =>
    let i := cs.length - 1 - ri
    if 0 < i ∧ i < cs.length - 1 then (cs.drop i).asString else ""
  | none => ""

/-- `PurePath(s).name`: the last slash-separated component of a stored path
string (used for the legacy-`_filename` compatibility shim). -/
def Path.lastName (s : String) : String :=
  ((s.toList.splitOn '/').getLastD s.toList).asString

/-- `s.endswith(suf)`, computed on character lists so it evaluates in the
kernel. -/
def strEndsWith (s suf : String) : Bool :=
  suf.toList.isSuffixOf s.toList

/-- ASCII `str.lower()`. -/
def charLower (c : Char) : Char :=
  if 65 ≤ c.toNat ∧ c.toNat ≤ 90 then Char.ofNat (c.toNat + 32) else c

def strToLower (s : String) : String :=
  (s.toList.map charLower).asString

/-! ## Handles and external collaborators -/

/-- External collaborators of `jbof.py`: digest, JSON codec, array codecs,
identifier generation and template formatting.  The theorems hold for every
instantiation. -/
structure PyExt where
  /-- `hashlib.md5(b).digest()`. -/
  md5 : Bytes → Bytes
  /-- `str(uuid.uuid1())`. -/
  uuid : String
  /-- `template.format(**metadata)`; raises `KeyError` on a missing key. -/
  format : String → Jmap → Except PyErr String
  /-- `json.load` of a metadata file (a JSON object). -/
  jsonLoad : Bytes → Except PyErr Jmap
  /-- `json.dump(…, indent=2, sort_keys=True)` of a metadata object. -/
  jsonDump : Jmap → Bytes
  /-- `numpy.save` file content. -/
  npySave : NpData → Bytes
  /-- `numpy.load`. -/
  npyLoad : Bytes → NpData
  /-- `soundfile.write` file content for data at a samplerate. -/
  sfWrite : NpData → Int → Bytes
  /-- `soundfile.read`: data and samplerate. -/
  sfRead : Bytes → NpData × Int
  /-- `soundfile.SoundFile(f).samplerate` read from a file's header. -/
  sfSamplerate : Bytes → Int
  /-- `scipy.io.savemat(path, {name: data})` file content. -/
  matSave : String → NpData → Bytes
  /-- `scipy.io.loadmat(...)[stem]`. -/
  matLoad : String → Bytes → NpData

/-- An `Array` handle (`jbof.Array`): decoded payload plus `metadata` and the
private `_filename` attribute. -/
structure Arr where
  filename : String
  metadata : Jmap
  data : NpData
deriving DecidableEq, Repr

/-- A key of `Item._array_cache`.  `__getattr__` inserts `str` keys; the
membership test in `delete_array` probes with a `pathlib.Path` key, and a
`Path` never equals a `str`. -/
inductive DKey where
  | str (s : String)
  | path (p : List String)
deriving DecidableEq, Repr

/-- An `Item` handle: `_directory` (`None` once deleted), `_readonly`,
`_metadata_cache`, `_array_cache`. -/
structure Item where
  directory : Option (List String)
  readonly : Bool
  metadata_cache : Option Jmap
  array_cache : List (DKey × Arr)
deriving DecidableEq, Repr

/-- A `DataSet` handle: `_directory` (`None` once deleted), `_readonly` and the
item cache `_cache`. -/
structure DataSet where
  directory : Option (List String)
  readonly : Bool
  cache : List Item
deriving DecidableEq, Repr

/-! ## DataSet construction (`DataSet.__init__`, lines 75–83)

```python
directory = Path(directory)
if not directory.exists():
    raise TypeError(f'DataSet directory {str(directory)} does not exist')
if not directory.is_dir() and (directory / '_metadata.json').exists():
    raise TypeError(f'{str(directory)} does not seem to be a DataSet')
self._directory = directory; self._readonly = readonly; self._cache = []
```
-/

def DataSet.init (w : World) (directory : List String) (readonly : Bool) :
    Except PyErr DataSet :=
  if ¬ w.exists_ directory then
    .error (.typeError "DataSet directory does not exist")
  else if ¬ w.is_dir directory ∧ w.exists_ (directory ++ ["_metadata.json"]) then
    .error (.typeError "does not seem to be a DataSet")
  else .ok ⟨some directory, readonly, []⟩

/-! ## Dataset metadata and naming (`itemformat`, `_itemname`, lines 85–111) -/

/-- `DataSet.itemformat`: `json.load(open(directory/'_metadata.json'))['_itemformat']`. -/
def DataSet.itemformat (ext : PyExt) (w : World) (d : DataSet) : Except PyErr JVal :=
  match d.directory with
  | none => .error (.typeError "unsupported operand type for /: NoneType and str")
  | some dir =>
    match w.readFile (dir ++ ["_metadata.json"]) with
    | .error e => .error e
    | .ok c =>
      match ext.jsonLoad c with
      | .error e => .error e
      | .ok m =>
        match m.lookup "_itemformat" with
        | some v => .ok v
        | none => .error (.keyError "_itemformat")

/-- The Python value produced by `DataSet._itemname`: a `str`, or — via the
`return TypeError(...)` in the final branch — a `TypeError` exception object
returned as an ordinary value. -/
inductive NameOrExc where
  | name (s : String)
  | exc (e : PyErr)
deriving DecidableEq, Repr

/-- `DataSet._itemname` (lines 104–111).  Note the source's last branch is
`return TypeError(...)`, not `raise`: the exception object becomes the result. -/
def DataSet._itemname (ext : PyExt) (w : World) (d : DataSet) (metadata : Option Jmap) :
    Except PyErr NameOrExc :=
  match DataSet.itemformat ext w d with
  | .error e => .error e
  | .ok itemformat =>
    match itemformat with
    | .str s =>
      if s.toList.contains '{' then
        match metadata with
        | none => .error (.typeError "format argument after ** must be a mapping")
        | some md =>
          match ext.format s md with
          | .error e => .error e
          | .ok r => .ok (.name r)
      else .ok (.exc (.typeError "itemname must be None, or format string"))
    | .null => .ok (.name ext.uuid)
    | _ => .ok (.exc (.typeError "itemname must be None, or format string"))

/-! ## Item enumeration and lookup (`all_items`, `has_item`, `get_item`) -/

/-- The `Item` handles built by one full directory scan of `all_items`:
one per child directory, skipping non-directories and `__pycache__`. -/
def scanItems (readonly : Bool) (children : List Node) : List Item :=
  (children.filter (fun n => n.isDir && Path.stem n.name != "__pycache__")).map
    (fun n => ⟨some n.path, readonly, none, []⟩)

/-- `DataSet.all_items` (lines 113–127), run to completion: replay the cache
when it is non-empty, otherwise list the directory, skipping non-directories
and `__pycache__`, and store the traversal in the cache. -/
def DataSet.all_items (w : World) (d : DataSet) :
    Except PyErr (List Item × DataSet) :=
  if ¬ d.cache.isEmpty then .ok (d.cache, d)
  else
    match d.directory with
    | none => .error .attributeError
    | some dir =>
      match w.iterdir dir with
      | .error e => .error e
      | .ok children =>
        .ok (scanItems d.readonly children,
             { d with cache := scanItems d.readonly children })

/-- `DataSet.has_item` (lines 188–193): `(directory / name).exists()`. -/
def DataSet.has_item (w : World) (d : DataSet) (name : String) :
    Except PyErr Bool :=
  match d.directory with
  | none => .error (.typeError "unsupported operand type for /: NoneType and str")
  | some dir => .ok (w.exists_ (dir ++ [name]))

/-- `DataSet.get_item` (lines 198–202). -/
def DataSet.get_item (w : World) (d : DataSet) (name : String) :
    Except PyErr Item :=
  match DataSet.has_item w d name with
  | .error e => .error e
  | .ok h =>
    if ¬ h then .error (.typeError "no item")
    else
      match d.directory with
      | none => .error (.typeError "unsupported operand type for /: NoneType and str")
      | some dir => .ok ⟨some (dir ++ [name]), d.readonly, none, []⟩

/-! ## Item metadata (`Item.metadata`, lines 245–252)

The cache is refilled whenever it is absent or falsy (`None` or an empty
dict). -/

def Item.metadataReload (ext : PyExt) (w : World) (it : Item) :
    Except PyErr (Jmap × Item) :=
  match it.directory with
  | none => .error (.typeError "unsupported operand type for /: NoneType and str")
  | some dir =>
    match w.readFile (dir ++ ["_metadata.json"]) with
    | .error e => .error e
    | .ok c =>
      match ext.jsonLoad c with
      | .error e => .error e
      | .ok m => .ok (m, { it with metadata_cache := some m })

def Item.metadata (ext : PyExt) (w : World) (it : Item) :
    Except PyErr (Jmap × Item) :=
  match it.metadata_cache with
  | some m => if ¬ m.isEmpty then .ok (m, it) else Item.metadataReload ext w it
  | none => Item.metadataReload ext w it

/-! ## Query filtering (`find_items` / `find_one_item`, lines 129–162) -/

/-- A keyword-query value: a string, or a list of values (the two forms the
code and its docstring handle: a non-string scalar would hit `in` on a
non-container). -/
inductive QVal where
  | str (s : String)
  | list (l : List JVal)
deriving DecidableEq, Repr

/-- `[value]` when the query value is a string, else the given list. -/
def QVal.asList : QVal → List JVal
  | .str s => [JVal.str s]
  | .list l => l

/-- The inner `for key, value in query.items(): … break / else: yield` loop of
`find_items`, for one item: each key triggers up to two `item.metadata`
property accesses, threading the handle's metadata cache. -/
def queryStep (ext : PyExt) (w : World) (it : Item) :
    List (String × QVal) → Except PyErr (Bool × Item)
  | [] => .ok (true, it)
  | (key, value) :: rest =>
    match Item.metadata ext w it with
    | .error e => .error e
    | .ok (md, it₁) =>
      if (md.lookup key).isNone then .ok (false, it₁)
      else
        match Item.metadata ext w it₁ with
        | .error e => .error e
        | .ok (md₂, it₂) =>
          match md₂.lookup key with
          | none => .error (.keyError key)
          | some x =>
            if x ∈ value.asList then queryStep ext w it₂ rest
            else .ok (false, it₂)

def findItemsLoop (ext : PyExt) (w : World) (q : List (String × QVal)) :
    List Item → Except PyErr (List Item)
  | [] => .ok []
  | it :: rest =>
    match queryStep ext w it q with
    | .error e => .error e
    | .ok (keep, it') =>
      match findItemsLoop ext w q rest with
      | .error e => .error e
      | .ok r => if keep then .ok (it' :: r) else .ok r

/-- `DataSet.find_items` (lines 129–154), run to completion. -/
def DataSet.find_items (ext : PyExt) (w : World) (d : DataSet)
    (q : List (String × QVal)) : Except PyErr (List Item × DataSet) :=
  match DataSet.all_items w d with
  | .error e => .error e
  | .ok (items, d') =>
    match findItemsLoop ext w q items with
    | .error e => .error e
    | .ok r => .ok (r, d')

/-- `DataSet.find_one_item` (lines 156–162): the first yielded match, or
`None`. -/
def DataSet.find_one_item (ext : PyExt) (w : World) (d : DataSet)
    (q : List (String × QVal)) : Except PyErr (Option Item × DataSet) :=
  match DataSet.find_items ext w d q with
  | .error e => .error e
  | .ok (r, d') => .ok (r.head?, d')

/-! ## Item creation and deletion (`add_item`, `delete_item`, `delete_dataset`) -/

/-- `dirname` resolution at the top of `add_item`: the explicit name if given,
else `self._itemname(metadata)`. -/
def addItemDirname (ext : PyExt) (w : World) (d : DataSet)
    (name : Option String) (metadata : Option Jmap) : Except PyErr NameOrExc :=
  match name with
  | none => DataSet._itemname ext w d metadata
  | some n => .ok (.name n)

/-- `DataSet.add_item` (lines 164–186).  When `name is None`, `_itemname` may
hand back a `TypeError` *object* as the directory name; `has_item` then joins
it onto a path, which is where Python raises. -/
def DataSet.add_item (ext : PyExt) (w : World) (d : DataSet)
    (name : Option String) (metadata : Option Jmap) :
    Except (PyErr × World × DataSet) (Item × World × DataSet) :=
  if d.readonly then .error (.runtimeError "DataSet is read-only", w, d)
  else
    match addItemDirname ext w d name metadata with
    | .error e => .error (e, w, d)
    | .ok (.exc _) =>
      -- `self._directory / dirname` with a TypeError object for `dirname`
      .error (.typeError "argument should be a str or an os.PathLike object", w, d)
    | .ok (.name dirname) =>
      match d.directory with
      | none => .error (.typeError "unsupported operand type for /: NoneType and str", w, d)
      | some dsdir =>
        if w.exists_ (dsdir ++ [dirname]) then
          .error (.typeError "Item with name already exists", w, d)
        else
          match w.mkdir (dsdir ++ [dirname]) with
          | .error e => .error (e, w, d)
          | .ok w₁ =>
            match w₁.writeFile (dsdir ++ [dirname, "_metadata.json"])
                (ext.jsonDump (metadata.getD [])) with
            | .error e => .error (e, w₁, d)
            | .ok w₂ =>
              .ok (⟨some (dsdir ++ [dirname]), d.readonly, none, []⟩, w₂,
                   if d.cache.isEmpty then d
                   else { d with cache :=
                     d.cache ++ [⟨some (dsdir ++ [dirname]), d.readonly, none, []⟩] })

/-- The argument of `delete_item`: an `Item` handle or an item name. -/
inductive ItemOrStr where
  | item (it : Item)
  | str (s : String)
deriving DecidableEq, Repr

/-- `if isinstance(item, str): item = self.get_item(item)` at the top of
`delete_item`. -/
def deleteItemResolve (w : World) (d : DataSet) (x : ItemOrStr) :
    Except PyErr Item :=
  match x with
  | .str s => DataSet.get_item w d s
  | .item it => .ok it

/-- `DataSet.delete_item` (lines 207–220).  The cache is emptied *before*
`shutil.rmtree` runs; the handle's `_directory` is then set to `None`. -/
def DataSet.delete_item (w : World) (d : DataSet) (x : ItemOrStr) :
    Except (PyErr × World × DataSet) (Item × World × DataSet) :=
  if d.readonly then .error (.runtimeError "DataSet is read-only", w, d)
  else
    match deleteItemResolve w d x with
    | .error e => .error (e, w, d)
    | .ok it =>
      match it.directory with
      | none => .error (.typeError "rmtree: path should be string or os.PathLike", w,
                        { d with cache := [] })
      | some p =>
        match w.rmtree p with
        | .error e => .error (e, w, { d with cache := [] })
        | .ok w₁ => .ok ({ it with directory := none }, w₁, { d with cache := [] })

/-- `jbof.delete_dataset` (lines 39–46): the read-only gate runs first, then
the whole directory tree is removed and the handle's `_directory` nulled. -/
def delete_dataset (w : World) (d : DataSet) :
    Except (PyErr × World × DataSet) (World × DataSet) :=
  if d.readonly then .error (.runtimeError "DataSet is read-only", w, d)
  else
    -- `isinstance(dataset, DataSet)` holds for every `d : DataSet`.
    match d.directory with
    | none => .error (.typeError "rmtree: path should be string or os.PathLike", w, d)
    | some dir =>
      match w.rmtree dir with
      | .error e => .error (e, w, d)
      | .ok w₁ => .ok (w₁, { d with directory := none })

/-! ## Content hashing (`calculate_hash`, lines 222–233) -/

/-- Python comparison of `bytes` values: lexicographic. -/
def byteLe : Bytes → Bytes → Bool
  | [], _ => true
  | _ :: _, [] => false
  | a :: as, b :: bs => if a < b then true else if b < a then false else byteLe as bs

/-- The ordering of `sorted` as a relation: `byteLe` read as a `Prop`. -/
def byteLeR (a b : Bytes) : Prop := byteLe a b = true

instance : DecidableRel byteLeR := fun a b => instDecidableEqBool (byteLe a b) true

/-- `sorted` on a list of byte strings: Python's sort result is the unique
`byteLe`-sorted permutation of its input, realised here by insertion sort. -/
def pySorted (l : List Bytes) : List Bytes :=
  List.insertionSort byteLeR l

/-- `hashlib.md5(x).hexdigest()` given `digest = md5 x`: hexadecimal encoding
of the digest bytes. -/
def hexChar (n : Nat) : Char :=
  if n < 10 then Char.ofNat (48 + n) else Char.ofNat (87 + n)

def hexdigest (bs : Bytes) : String :=
  (bs.map (fun b => [hexChar (b / 16 % 16), hexChar (b % 16)])).flatten.asString

/-- The inner `for file in item._directory.iterdir()` loop: hash each listed
entry's raw content (opening a subdirectory would raise). -/
def fileHashLoop (ext : PyExt) : List Node → Except PyErr (List Bytes)
  | [] => .ok []
  | n :: rest =>
    match n.kind with
    | .dir => .error .isADirectoryError
    | .file c =>
      match fileHashLoop ext rest with
      | .error e => .error e
      | .ok r => .ok (ext.md5 c :: r)

/-- One item's digest: md5 of the concatenation of its sorted per-file
digests. -/
def itemHash (ext : PyExt) (w : World) (it : Item) : Except PyErr Bytes :=
  match it.directory with
  | none => .error .attributeError
  | some dir =>
    match w.iterdir dir with
    | .error e => .error e
    | .ok children =>
      match fileHashLoop ext children with
      | .error e => .error e
      | .ok filehashes => .ok (ext.md5 (pySorted filehashes).flatten)

def itemHashLoop (ext : PyExt) (w : World) : List Item → Except PyErr (List Bytes)
  | [] => .ok []
  | it :: rest =>
    match itemHash ext w it with
    | .error e => .error e
    | .ok h =>
      match itemHashLoop ext w rest with
      | .error e => .error e
      | .ok r => .ok (h :: r)

/-- `DataSet.calculate_hash` (lines 222–233): per-item digests, sorted, joined,
hashed, hex-encoded. -/
def DataSet.calculate_hash (ext : PyExt) (w : World) (d : DataSet) :
    Except PyErr (String × DataSet) :=
  match DataSet.all_items w d with
  | .error e => .error e
  | .ok (items, d₁) =>
    match itemHashLoop ext w items with
    | .error e => .error e
    | .ok itemhashes => .ok (hexdigest (ext.md5 (pySorted itemhashes).flatten), d₁)

/-! ## Item-level array operations -/

/-- The unbound global name `getattribute` used by `Item.all_arrays`
(line 285): evaluating it raises `NameError`.  (The module defines no such
function; `getattr` exists but `getattribute` does not.) -/
def getattribute (_it : Item) (_name : String) : Except PyErr Arr :=
  .error (.nameError "getattribute")

/-- The `for meta in self._directory.glob('*.json')` loop body of
`Item.all_arrays` (lines 280–285): skip `_metadata`, else yield
`(meta.stem, getattribute(self, meta.stem))`. -/
def allArraysLoop (it : Item) : List Node → Except PyErr (List (String × Arr))
  | [] => .ok []
  | n :: rest =>
    if Path.stem n.name = "_metadata" then allArraysLoop it rest
    else do
      let a ← getattribute it (Path.stem n.name)
      let r ← allArraysLoop it rest
      .ok ((Path.stem n.name, a) :: r)

/-- `Item.all_arrays` (lines 280–285), run to completion.  `glob('*.json')`
matches the children whose name ends in `.json` (and yields nothing for a
missing directory). -/
def Item.all_arrays (w : World) (it : Item) :
    Except PyErr (List (String × Arr)) :=
  match it.directory with
  | none => .error .attributeError
  | some dir =>
    allArraysLoop it ((w.childNodes dir).filter (fun n => strEndsWith n.name ".json"))

/-- `Item.has_array` (lines 368–373): `(directory / (name + '.json')).is_file()`. -/
def Item.has_array (w : World) (it : Item) (name : String) : Except PyErr Bool :=
  match it.directory with
  | none => .error (.typeError "unsupported operand type for /: NoneType and str")
  | some dir => .ok (w.is_file (dir ++ [name ++ ".json"]))

/-- `Array.__new__` (lines 379–400): read the sidecar, resolve `_filename`
relative to the sidecar's directory (taking only the base name, for
compatibility with sidecars that stored full paths), decode the payload by
extension, fold the samplerate into audio metadata, and strip `_filename`
from the public view.  An extension outside the four handled ones leaves the
local `data` unassigned, so `numpy.asarray(data)` raises `NameError`.
This is the codec-dispatch part, given the already-decoded sidecar object. -/
def arrayDecode (ext : PyExt) (w : World) (metafile : List String) (md : Jmap) :
    Except PyErr Arr :=
  match md.lookup "_filename" with
  | none => .error (.keyError "_filename")
  | some fnV =>
    match fnV with
    | .str fn =>
      let extn := strToLower (Path.suffix (Path.lastName fn))
      let filename := metafile.dropLast ++ [Path.lastName fn]
      if extn = ".npy" then
        match w.readFile filename with
        | .error e => .error e
        | .ok pc => .ok ⟨fn, md.eraseJ "_filename", ext.npyLoad pc⟩
      else if extn = ".wav" ∨ extn = ".flac" ∨ extn = ".ogg" then
        match w.readFile filename with
        | .error e => .error e
        | .ok pc =>
          .ok ⟨fn, (md.insertJ "samplerate" (.num (ext.sfRead pc).2)).eraseJ "_filename",
               (ext.sfRead pc).1⟩
      else if extn = ".mat" then
        match w.readFile filename with
        | .error e => .error e
        | .ok pc => .ok ⟨fn, md.eraseJ "_filename", ext.matLoad (Path.stem (Path.lastName fn)) pc⟩
      else .error (.nameError "data")
    | _ => .error (.typeError "argument should be a str or an os.PathLike object")

def Array.new (ext : PyExt) (w : World) (metafile : List String) :
    Except PyErr Arr :=
  match w.readFile metafile with
  | .error e => .error e
  | .ok c =>
    match ext.jsonLoad c with
    | .error e => .error e
    | .ok md => arrayDecode ext w metafile md

/-- `Item.add_array` (lines 319–353): read-only gate, collision check, codec
dispatch by `fileformat` (audio requires a truthy samplerate), then the JSON
sidecar with `_filename`, and finally `Array(metafilename)`. -/
def Item.add_array (ext : PyExt) (w : World) (it : Item) (name : String)
    (data : NpData) (metadata : Option Jmap) (fileformat : String)
    (samplerate : Option Int) : Except (PyErr × World) (Arr × World) :=
  if it.readonly then .error (.runtimeError "DataSet is read-only", w)
  else
    let md := metadata.getD []
    match it.directory with
    | none => .error (.typeError "unsupported operand type for /: NoneType and str", w)
    | some dir =>
      let arrayfilename := dir ++ [name ++ "." ++ fileformat]
      if w.exists_ arrayfilename then
        .error (.typeError "Array with name already exists", w)
      else
        let stepE : Except PyErr (World × Jmap) :=
          if fileformat = "npy" then
            (w.writeFile arrayfilename (ext.npySave data)).map (fun w₁ => (w₁, md))
          else if fileformat = "wav" ∨ fileformat = "flac" ∨ fileformat = "ogg" then
            match samplerate with
            | some sr =>
              if sr ≠ 0 then
                (w.writeFile arrayfilename (ext.sfWrite data sr)).map
                  (fun w₁ => (w₁, md.insertJ "samplerate" (.num sr)))
              else .error (.typeError "Samplerate must be given for fileformat")
            | none => .error (.typeError "Samplerate must be given for fileformat")
          else if fileformat = "mat" then
            (w.writeFile arrayfilename (ext.matSave name data)).map (fun w₁ => (w₁, md))
          else .error (.notImplementedError "Fileformat not supported")
        match stepE with
        | .error e => .error (e, w)
        | .ok (w₁, md₁) =>
          let metafilename := dir ++ [name ++ ".json"]
          match w₁.writeFile metafilename
              (ext.jsonDump (md₁.insertJ "_filename" (.str (name ++ "." ++ fileformat)))) with
          | .error e => .error (e, w₁)
          | .ok w₂ =>
            match Array.new ext w₂ metafilename with
            | .error e => .error (e, w₂)
            | .ok a => .ok (a, w₂)

/-- `Item.add_array_from_file` (lines 287–317): read-only gate, source
existence check, samplerate sniffing for audio suffixes, collision check,
verbatim copy, sidecar write, and `Array(metafilename)`. -/
def Item.add_array_from_file (ext : PyExt) (w : World) (it : Item)
    (name : String) (filename : List String) (metadata : Option Jmap) :
    Except (PyErr × World) (Arr × World) :=
  if it.readonly then .error (.runtimeError "DataSet is read-only", w)
  else
    let md := metadata.getD []
    if ¬ w.exists_ filename then .error (.typeError "File does not exist", w)
    else
      let sfx := Path.suffix (filename.getLastD "")
      let mdE : Except PyErr Jmap :=
        if sfx = ".wav" ∨ sfx = ".flac" ∨ sfx = ".ogg" then
          (w.readFile filename).map
            (fun c => md.insertJ "samplerate" (.num (ext.sfSamplerate c)))
        else .ok md
      match mdE with
      | .error e => .error (e, w)
      | .ok md₁ =>
        match it.directory with
        | none => .error (.typeError "unsupported operand type for /: NoneType and str", w)
        | some dir =>
          let arrayfilename := dir ++ [name ++ sfx]
          if w.exists_ arrayfilename then
            .error (.typeError "Array with name already exists", w)
          else
            match w.readFile filename with
            | .error e => .error (e, w)
            | .ok c =>
              match w.writeFile arrayfilename c with
              | .error e => .error (e, w)
              | .ok w₁ =>
                let metafilename := dir ++ [name ++ ".json"]
                match w₁.writeFile metafilename
                    (ext.jsonDump (md₁.insertJ "_filename" (.str (name ++ sfx)))) with
                | .error e => .error (e, w₁)
                | .ok w₂ =>
                  match Array.new ext w₂ metafilename with
                  | .error e => .error (e, w₂)
                  | .ok a => .ok (a, w₂)

/-- `Item.delete_array` (lines 355–366).
`arrayfilename = Path(array._filename)` is a *relative* path built from the
bare stored file name; `unlink` therefore resolves it against the process
current working directory, not the item directory.  The cache probe tests the
`Path` object `metafilename` against the cache's `str` keys. -/
def Item.delete_array (w : World) (it : Item) (a : Arr) :
    Except (PyErr × World × Item) (World × Item) :=
  if it.readonly then .error (.runtimeError "DataSet is read-only", w, it)
  else
    -- `isinstance(array, Array)` holds for every `a : Arr`.
    let arrayRel := [a.filename]
    let metaRel := [Path.stem a.filename ++ ".json"]
    match w.unlink (w.cwd ++ arrayRel) with
    | .error e => .error (e, w, it)
    | .ok w₁ =>
      match w₁.unlink (w₁.cwd ++ metaRel) with
      | .error e => .error (e, w₁, it)
      | .ok w₂ =>
        let it' :=
          if (it.array_cache.map Prod.fst).contains (DKey.path metaRel) then
            { it with array_cache :=
                it.array_cache.filter (fun kv => kv.1 ≠ DKey.str (Path.stem a.filename)) }
          else it
        .ok (w₂, it')

/-- `Item.__getstate__` (lines 268–272): `state = self.__dict__` (the live
attribute dict, not a copy); the two caches are reset on it and the same dict
is returned.  The first component is the live object after the call, the
second the returned state — they are one and the same. -/
def Item.getstate (it : Item) : Item × Item :=
  let st := { it with metadata_cache := none, array_cache := [] }
  (st, st)

/-! ## Concrete fixtures used by the evaluation theorems and witnesses -/

/-- A concrete instantiation of the external collaborators. -/
def extA : PyExt where
  md5 := fun b => [(b.foldl (· + ·) 1) % 251]
  uuid := "uuid-1"
  format := fun _ _ => .ok "fmt"
  jsonLoad := fun b => .ok [("kind", .num (Int.ofNat (b.headD 0)))]
  jsonDump := fun m => [m.length]
  npySave := fun d => d.map Int.toNat
  npyLoad := fun b => b.map Int.ofNat
  sfWrite := fun d s => s.toNat :: d.map Int.toNat
  sfRead := fun b => (b.map Int.ofNat, 8)
  sfSamplerate := fun b => Int.ofNat (b.headD 0)
  matSave := fun _ d => d.map Int.toNat
  matLoad := fun _ b => b.map Int.ofNat

/-- A dataset directory `tmp` holding one item `it1` with one array `ones`,
viewed from a process whose working directory is `home`. -/
def wA : World :=
  ⟨["home"],
   [⟨["tmp"], .dir⟩, ⟨["tmp", "_metadata.json"], .file [3]⟩,
    ⟨["tmp", "it1"], .dir⟩, ⟨["tmp", "it1", "_metadata.json"], .file [5]⟩,
    ⟨["tmp", "it1", "ones.npy"], .file [9]⟩, ⟨["tmp", "it1", "ones.json"], .file [7]⟩]⟩

/-- A writable handle on `tmp` with an empty item cache. -/
def dA : DataSet := ⟨some ["tmp"], false, []⟩

/-- A handle on the item directory `tmp/it1` whose decoded-array cache holds
the `ones` array under its string key. -/
def itA : Item :=
  ⟨some ["tmp", "it1"], false, none, [(.str "ones", ⟨"ones.npy", [], []⟩)]⟩

/-- The `ones` array handle of `itA`: `_filename` stores the bare payload
name. -/
def arrA : Arr := ⟨"ones.npy", [], []⟩

/-! ## C1: `Item.all_arrays` on well-formed sidecars -/

/-- **C1.** On an item directory whose sidecars are all well formed
(`_metadata.json` plus the `ones` array's sidecar and payload), `all_arrays`
does not yield `(name, Array)` pairs: its body evaluates the unbound global
name `getattribute` (line 285) and raises `NameError` at the first
non-`_metadata` sidecar.  Only an item with no array sidecar at all
enumerates without failing (then the loop body never runs). -/
theorem c1_all_arrays_raises_nameerror :
    Item.all_arrays wA ⟨some ["tmp", "it1"], false, none, []⟩ =
      .error (.nameError "getattribute") ∧
    Item.all_arrays wA ⟨some ["tmp", "it2"], false, none, []⟩ = .ok [] := by
  constructor <;> decide

/-! ## C2: opening a dataset (`DataSet.__init__`) -/

/-- **C2.** Opening fails only when the path does not exist at all.  The second
guard is `not directory.is_dir() and (directory / '_metadata.json').exists()`,
which no real filesystem state satisfies: construction *succeeds* both on an
existing directory `d` that contains no `_metadata.json` and on a path `f`
that is a plain file — where the claim requires a NotFound failure. -/
theorem c2_init_accepts_invalid_directories :
    DataSet.init ⟨[], [⟨["d"], .dir⟩]⟩ ["d"] true = .ok ⟨some ["d"], true, []⟩ ∧
    DataSet.init ⟨[], [⟨["f"], .file []⟩]⟩ ["f"] true = .ok ⟨some ["f"], true, []⟩ ∧
    DataSet.init ⟨[], []⟩ ["absent"] true =
      .error (.typeError "DataSet directory does not exist") := by
  refine ⟨rfl, rfl, rfl⟩

/-! ## C3: `Item.delete_array` -/

/-- **C3.** `delete_array` builds `Path(array._filename)` from the bare stored
file name, so both unlinks resolve against the process working directory, not
the item directory.  With cwd `home`, deleting `ones` from `tmp/it1` raises
`FileNotFoundError`, the filesystem is unchanged, the cache entry survives and
`has_array` still reports the array.  Even when the cwd happens to *be* the
item directory (so both files are removed), the cache eviction never fires: the
membership probe compares the `Path` object `metafilename` against the cache's
`str` keys, so the decoded-array cache keeps the deleted array's entry. -/
theorem c3_delete_array_misses_files_and_cache :
    Item.delete_array wA itA arrA = .error (.fileNotFoundError, wA, itA) ∧
    Item.has_array wA itA "ones" = .ok true ∧
    Item.delete_array ⟨["tmp", "it1"], wA.nodes⟩ itA arrA =
      .ok (⟨["tmp", "it1"],
            [⟨["tmp"], .dir⟩, ⟨["tmp", "_metadata.json"], .file [3]⟩,
             ⟨["tmp", "it1"], .dir⟩, ⟨["tmp", "it1", "_metadata.json"], .file [5]⟩]⟩,
           itA) := by
  refine ⟨rfl, rfl, rfl⟩

/-! ## C8: deriving an item name from a non-string, non-null template -/

/-- External collaborators whose JSON decoder reads `tmp/_metadata.json` as
storing the naming template `_itemformat = 42`. -/
def extC8 : PyExt := { extA with jsonLoad := fun _ => .ok [("_itemformat", .num 42)] }

/-- **C8.** With the stored template equal to `42`, `_itemname` does not raise:
line 111 *returns* the `TypeError` object (`return TypeError(...)`), so the
derivation succeeds with an exception object as its value.  `add_item` then
proceeds with that object as the directory name until `has_item` joins it onto
a path, where pathlib raises a different `TypeError` — the failure is deferred,
not signalled at derivation time. -/
theorem c8_itemname_returns_typeerror_object :
    DataSet._itemname extC8 wA dA (some []) =
      .ok (.exc (.typeError "itemname must be None, or format string")) ∧
    DataSet.add_item extC8 wA dA none (some []) =
      .error (.typeError "argument should be a str or an os.PathLike object", wA, dA) := by
  refine ⟨rfl, rfl⟩

/-! ## C10: `Item.__getstate__` -/

/-- **C10.** `__getstate__` returns a state whose metadata cache is `None` and
whose decoded-array cache is empty while keeping the other attributes, and the
returned state *is* the live object's own attribute dictionary: the object
observed after the call and the returned state coincide, so serialisation also
clears the caches of the live `Item`. -/
theorem c10_getstate_resets_and_shares_caches (it : Item) :
    (Item.getstate it).2.metadata_cache = none ∧
    (Item.getstate it).2.array_cache = [] ∧
    (Item.getstate it).1 = (Item.getstate it).2 ∧
    (Item.getstate it).2.directory = it.directory ∧
    (Item.getstate it).2.readonly = it.readonly := by
  exact ⟨rfl, rfl, rfl, rfl, rfl⟩

/-! ## C7: read-only handles reject every mutation unchanged -/

/-- **C7.** Every mutating operation — `add_item`, `delete_item`,
`delete_dataset`, `add_array`, `add_array_from_file`, `delete_array` — checks
the handle's read-only flag before touching anything: on a read-only dataset
or item handle each fails with the `RuntimeError('DataSet is read-only')` and
leaves the filesystem (and the handle state) exactly as it was. -/
theorem c7_readonly_mutations_fail_without_change :
    (∀ (ext : PyExt) (w : World) (d : DataSet) (name : Option String) (md : Option Jmap),
      d.readonly = true →
      DataSet.add_item ext w d name md = .error (.runtimeError "DataSet is read-only", w, d)) ∧
    (∀ (w : World) (d : DataSet) (x : ItemOrStr),
      d.readonly = true →
      DataSet.delete_item w d x = .error (.runtimeError "DataSet is read-only", w, d)) ∧
    (∀ (w : World) (d : DataSet),
      d.readonly = true →
      delete_dataset w d = .error (.runtimeError "DataSet is read-only", w, d)) ∧
    (∀ (ext : PyExt) (w : World) (it : Item) (name : String) (data : NpData)
        (md : Option Jmap) (ff : String) (sr : Option Int),
      it.readonly = true →
      Item.add_array ext w it name data md ff sr =
        .error (.runtimeError "DataSet is read-only", w)) ∧
    (∀ (ext : PyExt) (w : World) (it : Item) (name : String)
        (fn : List String) (md : Option Jmap),
      it.readonly = true →
      Item.add_array_from_file ext w it name fn md =
        .error (.runtimeError "DataSet is read-only", w)) ∧
    (∀ (w : World) (it : Item) (a : Arr),
      it.readonly = true →
      Item.delete_array w it a = .error (.runtimeError "DataSet is read-only", w, it)) := by
  refine ⟨?_, ?_, ?_, ?_, ?_, ?_⟩
  · intro ext w d name md h; simp [DataSet.add_item, h]
  · intro w d x h; simp [DataSet.delete_item, h]
  · intro w d h; simp [delete_dataset, h]
  · intro ext w it name data md ff sr h; simp [Item.add_array, h]
  · intro ext w it name fn md h; simp [Item.add_array_from_file, h]
  · intro w it a h; simp [Item.delete_array, h]

/-- Witness for C7: a concrete read-only dataset and item handle reject all
six mutations unchanged. -/
theorem c7_readonly_witness :
    (⟨some ["tmp"], true, []⟩ : DataSet).readonly = true ∧
    (⟨some ["tmp", "it1"], true, none, []⟩ : Item).readonly = true ∧
    DataSet.add_item extA wA ⟨some ["tmp"], true, []⟩ (some "x") none =
      .error (.runtimeError "DataSet is read-only", wA, ⟨some ["tmp"], true, []⟩) ∧
    DataSet.delete_item wA ⟨some ["tmp"], true, []⟩ (.str "it1") =
      .error (.runtimeError "DataSet is read-only", wA, ⟨some ["tmp"], true, []⟩) ∧
    delete_dataset wA ⟨some ["tmp"], true, []⟩ =
      .error (.runtimeError "DataSet is read-only", wA, ⟨some ["tmp"], true, []⟩) ∧
    Item.add_array extA wA ⟨some ["tmp", "it1"], true, none, []⟩ "twos" [2] none "npy" none =
      .error (.runtimeError "DataSet is read-only", wA) ∧
    Item.add_array_from_file extA wA ⟨some ["tmp", "it1"], true, none, []⟩ "twos" ["home", "t.npy"] none =
      .error (.runtimeError "DataSet is read-only", wA) ∧
    Item.delete_array wA ⟨some ["tmp", "it1"], true, none, []⟩ arrA =
      .error (.runtimeError "DataSet is read-only", wA, ⟨some ["tmp", "it1"], true, none, []⟩) := by
  refine ⟨rfl, rfl, ?_, ?_, ?_, ?_, ?_, ?_⟩
  · exact c7_readonly_mutations_fail_without_change.1 extA wA _ (some "x") none rfl
  · exact c7_readonly_mutations_fail_without_change.2.1 wA _ (.str "it1") rfl
  · exact c7_readonly_mutations_fail_without_change.2.2.1 wA _ rfl
  · exact c7_readonly_mutations_fail_without_change.2.2.2.1 extA wA _ "twos" [2] none "npy" none rfl
  · exact c7_readonly_mutations_fail_without_change.2.2.2.2.1 extA wA _ "twos" ["home", "t.npy"] none rfl
  · exact c7_readonly_mutations_fail_without_change.2.2.2.2.2 wA _ arrA rfl

/-! ## C6: the asymmetric item-cache policy -/

/-- **C6.**  The item cache policy of `DataSet`:
1. a first complete traversal of `all_items` from an empty cache stores the
   scanned items in the cache;
2. any call with a populated (non-empty) cache replays exactly the cached
   items and leaves the state untouched — for *every* filesystem, i.e. without
   re-listing the directory;
3. a successful `add_item` appends the new item to a populated cache and
   leaves an empty cache empty (it never forces a rescan);
4. a successful `delete_item` always clears the cache entirely, so the next
   `all_items` re-scans the directory. -/
theorem c6_item_cache_policy :
    (∀ (w : World) (d : DataSet) (items : List Item) (d' : DataSet),
      d.cache = [] → DataSet.all_items w d = .ok (items, d') → d'.cache = items) ∧
    (∀ (w : World) (d : DataSet), d.cache ≠ [] →
      DataSet.all_items w d = .ok (d.cache, d)) ∧
    (∀ (ext : PyExt) (w : World) (d : DataSet) (name : Option String) (md : Option Jmap)
        (it : Item) (w' : World) (d' : DataSet),
      DataSet.add_item ext w d name md = .ok (it, w', d') →
      d'.cache = if d.cache.isEmpty then d.cache else d.cache ++ [it]) ∧
    (∀ (w : World) (d : DataSet) (x : ItemOrStr) (it : Item) (w' : World) (d' : DataSet),
      DataSet.delete_item w d x = .ok (it, w', d') → d'.cache = []) := by
  refine ⟨?_, ?_, ?_, ?_⟩
  · intro w d items d' hc hok
    unfold DataSet.all_items at hok
    rw [hc] at hok
    simp only [List.isEmpty_nil, not_true_eq_false, if_false] at hok
    rcases hdir : d.directory with _ | dir
    · simp only [hdir] at hok; simp at hok
    · simp only [hdir] at hok
      rcases hit : w.iterdir dir with e | children
      · simp only [hit] at hok; simp at hok
      · simp only [hit, Except.ok.injEq, Prod.mk.injEq] at hok
        obtain ⟨h1, h2⟩ := hok
        subst h1; subst h2; rfl
  · intro w d hc
    unfold DataSet.all_items
    have h : d.cache.isEmpty = false := by
      cases h : d.cache with
      | nil => exact absurd h hc
      | cons a l => rfl
    simp [h]
  · intro ext w d name md it w' d' hok
    unfold DataSet.add_item at hok
    split at hok
    · simp at hok
    rcases h1 : addItemDirname ext w d name md with e | dn
    · simp only [h1] at hok; simp at hok
    simp only [h1] at hok
    rcases dn with dirname | e
    · rcases h2 : d.directory with _ | dsdir
      · simp only [h2] at hok; simp at hok
      simp only [h2] at hok
      by_cases h3 : w.exists_ (dsdir ++ [dirname]) = true
      · simp only [h3, if_true] at hok; simp at hok
      · simp only [h3, if_false] at hok
        rcases h4 : w.mkdir (dsdir ++ [dirname]) with e | w₁
        · simp only [h4] at hok; simp at hok
        simp only [h4] at hok
        rcases h5 : w₁.writeFile (dsdir ++ [dirname, "_metadata.json"])
            (ext.jsonDump (md.getD [])) with e | w₂
        · simp only [h5] at hok; simp at hok
        simp only [h5, Bool.false_eq_true, if_false, Except.ok.injEq,
          Prod.mk.injEq] at hok
        obtain ⟨hi, hw, hd⟩ := hok
        subst hi; subst hd
        by_cases hemp : d.cache.isEmpty <;> simp [hemp]
    · simp at hok
  · intro w d x it w' d' hok
    unfold DataSet.delete_item at hok
    split at hok
    · simp at hok
    rcases h1 : deleteItemResolve w d x with e | it0
    · simp only [h1] at hok; simp at hok
    simp only [h1] at hok
    rcases h2 : it0.directory with _ | p
    · simp only [h2] at hok; simp at hok
    simp only [h2] at hok
    rcases h3 : w.rmtree p with e | w₁
    · simp only [h3] at hok; simp at hok
    simp only [h3, Except.ok.injEq, Prod.mk.injEq] at hok
    obtain ⟨ha, hb, hd⟩ := hok
    subst hd; rfl

/-- The items and states produced by the C6 witness scenario. -/
def itB : Item := ⟨some ["tmp", "it1"], false, none, []⟩

def dB : DataSet := ⟨some ["tmp"], false, [itB]⟩

def itX : Item := ⟨some ["tmp", "x"], false, none, []⟩

def wX : World :=
  ⟨["home"], wA.nodes ++ [⟨["tmp", "x"], .dir⟩, ⟨["tmp", "x", "_metadata.json"], .file [0]⟩]⟩

def dBX : DataSet := ⟨some ["tmp"], false, [itB, itX]⟩

/-- Witness for C6 on the concrete dataset `tmp`: the first traversal caches
`[itB]`; the populated cache is replayed even against an empty filesystem;
`add_item` appends `itX` to the populated cache; `delete_item` empties it. -/
theorem c6_cache_policy_witness :
    DataSet.all_items wA dA = .ok ([itB], dB) ∧
    dB.cache = [itB] ∧
    DataSet.all_items ⟨[], []⟩ dB = .ok (dB.cache, dB) ∧
    dBX.cache = dB.cache ++ [itX] ∧
    dA.cache = ([] : List Item) := by
  refine ⟨by decide, ?_, ?_, ?_, ?_⟩
  · exact c6_item_cache_policy.1 wA dA [itB] dB rfl (by decide)
  · exact c6_item_cache_policy.2.1 ⟨[], []⟩ dB (by decide)
  · have h := c6_item_cache_policy.2.2.1 extA wA dB (some "x") none itX wX dBX (by decide)
    simpa using h
  · exact c6_item_cache_policy.2.2.2 wA dB (.str "it1") ⟨none, false, none, []⟩
      ⟨["home"], [⟨["tmp"], .dir⟩, ⟨["tmp", "_metadata.json"], .file [3]⟩]⟩ dA (by decide)

/-! ## C5: `find_items` / `find_one_item` are exact-membership filters -/

/-- The claim's filter predicate, stated from the spec's words: for each
queried key, the metadata must contain the key and its value must equal the
queried string (or be a member of the queried list).  An item missing any
queried key is excluded. -/
def specMatches (md : Jmap) (q : List (String × QVal)) : Bool :=
  q.all fun kv =>
    match md.lookup kv.1 with
    | none => false
    | some x =>
      match kv.2 with
      | .str s => decide (x = JVal.str s)
      | .list l => decide (x ∈ l)

/-- `queryStep` computes exactly the spec predicate, returning the handle with
its metadata cache threaded (`it` untouched for an empty query, the loaded
handle `u` otherwise). -/
theorem queryStep_spec (ext : PyExt) (w : World) (q : List (String × QVal))
    (it u : Item) (m : Jmap)
    (h1 : Item.metadata ext w it = .ok (m, u))
    (h2 : Item.metadata ext w u = .ok (m, u)) :
    queryStep ext w it q = .ok (specMatches m q, if q.isEmpty then it else u) := by
  induction q generalizing it with
  | nil => simp [queryStep, specMatches]
  | cons kv rest ih =>
    obtain ⟨key, value⟩ := kv
    rcases hk : m.lookup key with _ | x
    · simp [queryStep, h1, specMatches, hk]
    · have hrest := ih u h2
      by_cases hx : x ∈ value.asList
      · rcases value with s | l
        · simp only [QVal.asList, List.mem_singleton] at hx
          simp [queryStep, h1, h2, hk, hrest, specMatches, hx, QVal.asList, ite_self]
        · simp only [QVal.asList] at hx
          simp [queryStep, h1, h2, hk, hrest, specMatches, hx, QVal.asList, ite_self]
      · rcases value with s | l
        · simp only [QVal.asList, List.mem_singleton] at hx
          simp [queryStep, h1, h2, hk, specMatches, hx, QVal.asList]
        · simp only [QVal.asList] at hx
          simp [queryStep, h1, h2, hk, specMatches, hx, QVal.asList]

theorem findItemsLoop_spec (ext : PyExt) (w : World) (q : List (String × QVal))
    (items : List Item) (M : Item → Jmap) (upd : Item → Item)
    (hmd : ∀ it ∈ items, Item.metadata ext w it = .ok (M it, upd it) ∧
           Item.metadata ext w (upd it) = .ok (M it, upd it)) :
    findItemsLoop ext w q items =
      .ok ((items.filter (fun it => specMatches (M it) q)).map
           (fun it => if q.isEmpty then it else upd it)) := by
  induction items with
  | nil => simp [findItemsLoop]
  | cons it rest ih =>
    obtain ⟨h1, h2⟩ := hmd it (by simp)
    have hrest := ih (fun x hx => hmd x (by simp [hx]))
    rw [findItemsLoop, queryStep_spec ext w q it (upd it) (M it) h1 h2, hrest]
    by_cases hm : specMatches (M it) q = true <;> simp [hm]

/-- **C5.**  For every dataset handle and keyword query, provided each
enumerated item's metadata loads deterministically (to `M it`, producing the
cache-threaded handle `upd it`), `find_items` yields exactly the items of
`all_items()` satisfying the exact-membership predicate: every queried key is
present in the item's metadata and its value equals the queried string, or
belongs to the queried list; an item missing any queried key is excluded.
`find_one_item` returns the first such item, or `none` when no item
matches. -/
theorem c5_find_items_filters_by_exact_membership
    (ext : PyExt) (w : World) (d : DataSet) (q : List (String × QVal))
    (items : List Item) (d₀ : DataSet) (M : Item → Jmap) (upd : Item → Item)
    (hall : DataSet.all_items w d = .ok (items, d₀))
    (hmd : ∀ it ∈ items, Item.metadata ext w it = .ok (M it, upd it) ∧
           Item.metadata ext w (upd it) = .ok (M it, upd it)) :
    DataSet.find_items ext w d q =
      .ok ((items.filter (fun it => specMatches (M it) q)).map
           (fun it => if q.isEmpty then it else upd it), d₀) ∧
    DataSet.find_one_item ext w d q =
      .ok (((items.filter (fun it => specMatches (M it) q)).map
           (fun it => if q.isEmpty then it else upd it)).head?, d₀) := by
  have hfi : DataSet.find_items ext w d q =
      .ok ((items.filter (fun it => specMatches (M it) q)).map
           (fun it => if q.isEmpty then it else upd it), d₀) := by
    rw [DataSet.find_items, hall]
    simp only [findItemsLoop_spec ext w q items M upd hmd]
  exact ⟨hfi, by rw [DataSet.find_one_item, hfi]⟩

/-- Witness for C5 on the concrete dataset `tmp`: the single item matches the
list query on its `kind` field, and a non-matching string query yields the
`none` signal from `find_one_item`. -/
theorem c5_witness :
    DataSet.find_items extA wA dA [("kind", QVal.list [.num 5, .num 7])] =
      .ok ([⟨some ["tmp", "it1"], false, some [("kind", JVal.num 5)], []⟩], dB) ∧
    DataSet.find_one_item extA wA dA [("kind", QVal.str "x")] = .ok (none, dB) := by
  constructor
  · have h := (c5_find_items_filters_by_exact_membership extA wA dA
      [("kind", QVal.list [.num 5, .num 7])] [itB] dB
      (fun _ => [("kind", JVal.num 5)])
      (fun it => { it with metadata_cache := some [("kind", JVal.num 5)] })
      (by decide) (by decide)).1
    exact h.trans (by decide)
  · have h := (c5_find_items_filters_by_exact_membership extA wA dA
      [("kind", QVal.str "x")] [itB] dB
      (fun _ => [("kind", JVal.num 5)])
      (fun it => { it with metadata_cache := some [("kind", JVal.num 5)] })
      (by decide) (by decide)).2
    exact h.trans (by decide)

/-! ## C4 infrastructure: the byte order, sorting, and permutation lemmas -/

theorem byteLe_total (a b : Bytes) : byteLe a b = true ∨ byteLe b a = true := by
  induction a generalizing b with
  | nil => exact .inl rfl
  | cons x xs ih =>
    cases b with
    | nil => exact .inr rfl
    | cons y ys =>
      rcases Nat.lt_trichotomy x y with h | h | h
      · left; simp [byteLe, h]
      · subst h
        rcases ih ys with h' | h'
        · left; simp [byteLe, h']
        · right; simp [byteLe, h']
      · right; simp [byteLe, h]

theorem byteLe_trans {a b c : Bytes} (h1 : byteLe a b = true) (h2 : byteLe b c = true) :
    byteLe a c = true := by
  induction a generalizing b c with
  | nil => rfl
  | cons x xs ih =>
    cases b with
    | nil => simp [byteLe] at h1
    | cons y ys =>
      cases c with
      | nil => simp [byteLe] at h2
      | cons z zs =>
        simp only [byteLe] at h1 h2 ⊢
        rcases Nat.lt_trichotomy x y with hxy | hxy | hxy
        · rcases Nat.lt_trichotomy y z with hyz | hyz | hyz
          · simp [Nat.lt_trans hxy hyz]
          · subst hyz; simp [hxy]
          · simp [Nat.lt_asymm hyz, hyz] at h2
        · subst hxy
          simp only [Nat.lt_irrefl, if_false] at h1
          rcases Nat.lt_trichotomy x z with hxz | hxz | hxz
          · simp [hxz]
          · subst hxz
            simp only [Nat.lt_irrefl, if_false] at h2 ⊢
            exact ih h1 h2
          · simp [Nat.lt_asymm hxz, hxz] at h2
        · simp [Nat.lt_asymm hxy, hxy] at h1

theorem byteLe_antisymm {a b : Bytes} (h1 : byteLe a b = true) (h2 : byteLe b a = true) :
    a = b := by
  induction a generalizing b with
  | nil =>
    cases b with
    | nil => rfl
    | cons y ys => simp [byteLe] at h2
  | cons x xs ih =>
    cases b with
    | nil => simp [byteLe] at h1
    | cons y ys =>
      simp only [byteLe] at h1 h2
      rcases Nat.lt_trichotomy x y with hxy | hxy | hxy
      · simp [Nat.lt_asymm hxy, hxy] at h2
      · subst hxy
        simp only [Nat.lt_irrefl, if_false] at h1 h2
        rw [ih h1 h2]
      · simp [Nat.lt_asymm hxy, hxy] at h1

instance : IsTotal Bytes byteLeR := ⟨byteLe_total⟩

instance : IsTrans Bytes byteLeR := ⟨fun _ _ _ => byteLe_trans⟩

instance : IsAntisymm Bytes byteLeR := ⟨fun _ _ => byteLe_antisymm⟩

/-- Sorting is invariant under permutation of the input: the sorted list is
the unique `byteLe`-ordered arrangement of the multiset. -/
theorem pySorted_eq_of_perm {l₁ l₂ : List Bytes} (h : l₁.Perm l₂) :
    pySorted l₁ = pySorted l₂ :=
  List.eq_of_perm_of_sorted
    (((List.perm_insertionSort _ l₁).trans h).trans (List.perm_insertionSort _ l₂).symm)
    (List.sorted_insertionSort _ l₁) (List.sorted_insertionSort _ l₂)

theorem perm_any {α : Type} {l₁ l₂ : List α} (h : l₁.Perm l₂) (p : α → Bool) :
    l₁.any p = l₂.any p := by
  cases h1 : l₁.any p <;> cases h2 : l₂.any p <;> try rfl
  · rw [List.any_eq_true] at h2
    obtain ⟨x, hx, hpx⟩ := h2
    have h3 := List.any_eq_true.mpr ⟨x, h.mem_iff.mpr hx, hpx⟩
    rw [h1] at h3; exact h3
  · rw [List.any_eq_true] at h1
    obtain ⟨x, hx, hpx⟩ := h1
    have h3 := List.any_eq_true.mpr ⟨x, h.mem_iff.mp hx, hpx⟩
    rw [h2] at h3; exact h3.symm

theorem perm_all {α : Type} {l₁ l₂ : List α} (h : l₁.Perm l₂) (p : α → Bool) :
    l₁.all p = l₂.all p := by
  cases h1 : l₁.all p <;> cases h2 : l₂.all p <;> try rfl
  · rw [List.all_eq_true] at h2
    have h3 := List.all_eq_true.mpr (fun x hx => h2 x (h.mem_iff.mp hx))
    rw [h1] at h3; exact h3
  · rw [List.all_eq_true] at h1
    have h3 := List.all_eq_true.mpr (fun x hx => h1 x (h.mem_iff.mpr hx))
    rw [h2] at h3; exact h3.symm

/-- `fileHashLoop` raises `IsADirectoryError` as soon as a listed child is a
directory, and otherwise digests each file's content in order. -/
theorem fileHashLoop_eq (ext : PyExt) (l : List Node) :
    fileHashLoop ext l =
      if l.any Node.isDir then .error .isADirectoryError
      else .ok (l.map (fun n => ext.md5 n.contentD)) := by
  induction l with
  | nil => rfl
  | cons n rest ih =>
    cases hk : n.kind with
    | dir => simp [fileHashLoop, hk, Node.isDir]
    | file c =>
      by_cases h : rest.any Node.isDir = true <;>
        simp [fileHashLoop, hk, ih, h, Node.isDir, Node.contentD]

/-- `World.exists_`, `World.is_dir` and child listings transfer along a
permutation of the filesystem listing. -/
theorem is_dir_perm {w₁ w₂ : World} (hp : w₁.nodes.Perm w₂.nodes) (p : List String) :
    w₁.is_dir p = w₂.is_dir p := perm_any hp _

theorem exists_perm {w₁ w₂ : World} (hp : w₁.nodes.Perm w₂.nodes) (p : List String) :
    w₁.exists_ p = w₂.exists_ p := perm_any hp _

theorem childNodes_perm {w₁ w₂ : World} (hp : w₁.nodes.Perm w₂.nodes) (p : List String) :
    (w₁.childNodes p).Perm (w₂.childNodes p) := hp.filter _

/-- An item's digest does not depend on the listing order of the
filesystem. -/
theorem itemHash_perm (ext : PyExt) {w₁ w₂ : World} (hp : w₁.nodes.Perm w₂.nodes)
    (it : Item) : itemHash ext w₁ it = itemHash ext w₂ it := by
  cases hd : it.directory with
  | none => simp [itemHash, hd]
  | some dir =>
    simp only [itemHash, World.iterdir, hd]
    rw [is_dir_perm hp dir, exists_perm hp dir]
    by_cases h1 : w₂.is_dir dir = true
    · simp only [h1, if_true]
      rw [fileHashLoop_eq, fileHashLoop_eq,
        perm_any (childNodes_perm hp dir) Node.isDir]
      by_cases hany : (w₂.childNodes dir).any Node.isDir = true
      · simp [hany]
      · simp only [hany, Bool.false_eq_true, if_false]
        rw [pySorted_eq_of_perm ((childNodes_perm hp dir).map _)]
    · simp [h1]

/-- `true` exactly on successful results. -/
def exceptIsOk {ε α : Type} : Except ε α → Bool
  | .ok _ => true
  | .error _ => false

theorem exceptIsOk_ok {ε α : Type} (a : α) : exceptIsOk (Except.ok (ε := ε) a) = true := rfl

theorem exceptIsOk_error {ε α : Type} (e : ε) :
    exceptIsOk (Except.error (α := α) e) = false := rfl

theorem toOption_ok {ε α : Type} (a : α) :
    (Except.ok (ε := ε) a).toOption = some a := rfl

theorem itemHashLoop_congr (ext : PyExt) (w₁ w₂ : World) (l : List Item)
    (h : ∀ it ∈ l, itemHash ext w₁ it = itemHash ext w₂ it) :
    itemHashLoop ext w₁ l = itemHashLoop ext w₂ l := by
  induction l with
  | nil => rfl
  | cons it rest ih =>
    rw [itemHashLoop, itemHashLoop, h it (by simp),
      ih (fun x hx => h x (by simp [hx]))]

/-- When every per-item failure can only be `IsADirectoryError`,
`itemHashLoop` either fails with exactly that error or returns all the item
digests in order. -/
theorem itemHashLoop_char (ext : PyExt) (w : World) (l : List Item)
    (herr : ∀ it ∈ l, ∀ e, itemHash ext w it = .error e → e = .isADirectoryError) :
    itemHashLoop ext w l =
      if l.all (fun it => exceptIsOk (itemHash ext w it)) then
        .ok (l.filterMap (fun it => (itemHash ext w it).toOption))
      else .error .isADirectoryError := by
  induction l with
  | nil => rfl
  | cons it rest ih =>
    rcases hh : itemHash ext w it with e | h
    · have he := herr it (by simp) e hh
      subst he
      simp [itemHashLoop, hh, exceptIsOk]
    · have ihh := ih (fun x hx => herr x (by simp [hx]))
      simp only [itemHashLoop, ihh, List.all_cons, List.filterMap_cons, hh, exceptIsOk_ok,
        toOption_ok, Bool.true_and]
      by_cases hall : rest.all (fun it => exceptIsOk (itemHash ext w it)) = true <;>
        simp only [hall, eq_self_iff_true, if_true, Bool.false_eq_true, if_false]

/-- Every item handle produced by a directory scan points at a directory of
that filesystem, so its `itemHash` can only fail with `IsADirectoryError`
(a subdirectory inside the item directory). -/
theorem scanItems_itemHash_err (ext : PyExt) (w : World) (ro : Bool) (dir : List String)
    (it : Item) (hit : it ∈ scanItems ro (w.childNodes dir)) :
    ∀ e, itemHash ext w it = .error e → e = .isADirectoryError := by
  intro e he
  obtain ⟨n, hn, hform⟩ := List.mem_map.mp hit
  have hmem : n ∈ w.childNodes dir := List.mem_of_mem_filter hn
  have hdirn : n.isDir = true := by
    have := List.of_mem_filter hn
    exact (Bool.and_eq_true _ _).mp this |>.1
  have hnodes : n ∈ w.nodes := List.mem_of_mem_filter hmem
  have hisdir : w.is_dir n.path = true := by
    unfold World.is_dir
    rw [List.any_eq_true]
    exact ⟨n, hnodes, by simp [hdirn]⟩
  rw [← hform] at he
  unfold itemHash World.iterdir at he
  simp only [hisdir, if_true] at he
  rw [fileHashLoop_eq] at he
  by_cases hany : (w.childNodes n.path).any Node.isDir = true
  · simp only [hany, if_true] at he
    injection he with h
    exact h.symm
  · simp only [hany, Bool.false_eq_true, if_false] at he
    simp at he

/-- `all_items` with a populated cache replays it. -/
theorem all_items_replay (w : World) (d : DataSet) (h : d.cache.isEmpty = false) :
    DataSet.all_items w d = .ok (d.cache, d) := by
  simp [DataSet.all_items, h]

/-- `all_items` from an empty cache scans the dataset directory. -/
theorem all_items_scan (w : World) (d : DataSet) (dir : List String)
    (hc : d.cache.isEmpty = true) (hd : d.directory = some dir)
    (hdir : w.is_dir dir = true) :
    DataSet.all_items w d =
      .ok (scanItems d.readonly (w.childNodes dir),
           { d with cache := scanItems d.readonly (w.childNodes dir) }) := by
  simp [DataSet.all_items, hc, hd, World.iterdir, hdir]

/-- `all_items` from an empty cache fails when the dataset path is not a
directory. -/
theorem all_items_scan_err (w : World) (d : DataSet) (dir : List String)
    (hc : d.cache.isEmpty = true) (hd : d.directory = some dir)
    (hdir : w.is_dir dir = false) :
    DataSet.all_items w d =
      .error (if w.exists_ dir then .notADirectoryError else .fileNotFoundError) := by
  by_cases he : w.exists_ dir = true <;>
    simp [DataSet.all_items, hc, hd, World.iterdir, hdir, he]

theorem calculate_hash_of_all_items_ok (ext : PyExt) (w : World) (d : DataSet)
    (items : List Item) (d₁ : DataSet)
    (h : DataSet.all_items w d = .ok (items, d₁)) :
    DataSet.calculate_hash ext w d =
      match itemHashLoop ext w items with
      | .error e => .error e
      | .ok ih => .ok (hexdigest (ext.md5 (pySorted ih).flatten), d₁) := by
  unfold DataSet.calculate_hash
  simp only [h]

theorem calculate_hash_of_all_items_err (ext : PyExt) (w : World) (d : DataSet)
    (e : PyErr) (h : DataSet.all_items w d = .error e) :
    DataSet.calculate_hash ext w d = .error e := by
  unfold DataSet.calculate_hash
  simp only [h]

/-- **C4.**  `calculate_hash` is invariant under any permutation of the
on-disk directory listing: per item the file digests are sorted before being
combined, and the item digests are sorted before the final digest, so two
filesystem states whose listings are permutations of one another (identical
file contents, different listing or insertion order) hash to the same value,
whatever the digest function and whatever the handle's cache state. -/
theorem c4_calculate_hash_listing_order_invariant
    (ext : PyExt) (w₁ w₂ : World) (d : DataSet)
    (hp : w₁.nodes.Perm w₂.nodes) :
    (DataSet.calculate_hash ext w₁ d).map Prod.fst =
    (DataSet.calculate_hash ext w₂ d).map Prod.fst := by
  by_cases hc : d.cache.isEmpty
  case neg =>
    rw [Bool.not_eq_true] at hc
    rw [calculate_hash_of_all_items_ok ext w₁ d d.cache d (all_items_replay w₁ d hc),
        calculate_hash_of_all_items_ok ext w₂ d d.cache d (all_items_replay w₂ d hc),
        itemHashLoop_congr ext w₁ w₂ d.cache (fun it _ => itemHash_perm ext hp it)]
  case pos =>
    cases hdd : d.directory with
    | none =>
      unfold DataSet.calculate_hash DataSet.all_items
      simp [hc, hdd]
    | some dir =>
      by_cases h1 : w₁.is_dir dir = true
      · have h2 : w₂.is_dir dir = true := (is_dir_perm hp dir) ▸ h1
        rw [calculate_hash_of_all_items_ok ext w₁ d _ _ (all_items_scan w₁ d dir hc hdd h1),
            calculate_hash_of_all_items_ok ext w₂ d _ _ (all_items_scan w₂ d dir hc hdd h2)]
        have hlp : (scanItems d.readonly (w₁.childNodes dir)).Perm
            (scanItems d.readonly (w₂.childNodes dir)) :=
          ((childNodes_perm hp dir).filter _).map _
        have herr₁ : ∀ it ∈ scanItems d.readonly (w₁.childNodes dir), ∀ e,
            itemHash ext w₁ it = .error e → e = .isADirectoryError :=
          fun it hit => scanItems_itemHash_err ext w₁ d.readonly dir it hit
        have herr₂ : ∀ it ∈ scanItems d.readonly (w₂.childNodes dir), ∀ e,
            itemHash ext w₁ it = .error e → e = .isADirectoryError :=
          fun it hit => herr₁ it (hlp.mem_iff.mpr hit)
        rw [itemHashLoop_congr ext w₂ w₁ _ (fun it _ => itemHash_perm ext hp.symm it),
            itemHashLoop_char ext w₁ _ herr₁, itemHashLoop_char ext w₁ _ herr₂,
            perm_all hlp (fun it => exceptIsOk (itemHash ext w₁ it))]
        by_cases hA : (scanItems d.readonly (w₂.childNodes dir)).all
            (fun it => exceptIsOk (itemHash ext w₁ it)) = true
        · simp only [hA, eq_self_iff_true, if_true]
          rw [pySorted_eq_of_perm (hlp.filterMap (fun it => (itemHash ext w₁ it).toOption))]
          rfl
        · simp only [hA, Bool.false_eq_true, if_false]
      · have h2 : w₂.is_dir dir = false := by
          rw [← is_dir_perm hp dir]
          exact Bool.not_eq_true _ |>.mp h1
        rw [calculate_hash_of_all_items_err ext w₁ d _ (all_items_scan_err w₁ d dir hc hdd
              (Bool.not_eq_true _ |>.mp h1)),
            calculate_hash_of_all_items_err ext w₂ d _ (all_items_scan_err w₂ d dir hc hdd h2),
            exists_perm hp dir]

/-- The dataset directory listed in the opposite order. -/
def wAperm : World :=
  ⟨["home"],
   [⟨["tmp", "it1", "ones.json"], .file [7]⟩, ⟨["tmp", "it1", "ones.npy"], .file [9]⟩,
    ⟨["tmp", "it1", "_metadata.json"], .file [5]⟩, ⟨["tmp", "it1"], .dir⟩,
    ⟨["tmp", "_metadata.json"], .file [3]⟩, ⟨["tmp"], .dir⟩]⟩

/-- Witness for C4: the dataset `tmp` hashed under its original and its
reversed directory listing produces the same digest. -/
theorem c4_witness :
    (DataSet.calculate_hash extA wA dA).map Prod.fst =
      (DataSet.calculate_hash extA wAperm dA).map Prod.fst ∧
    (DataSet.calculate_hash extA wA dA).map Prod.fst = .ok "1a" := by
  constructor
  · exact c4_calculate_hash_listing_order_invariant extA wA wAperm dA (by decide)
  · decide

/-! ## C9 infrastructure: modifying one dataset-level file -/

/-- Replace the content of the file at `target` (directories unchanged). -/
def updNode (target : List String) (c : Bytes) (n : Node) : Node :=
  if n.path = target then
    match n.kind with
    | .file _ => ⟨n.path, .file c⟩
    | .dir => n
  else n

/-- The world after overwriting the file at `target` with content `c`. -/
def World.updateFileContent (w : World) (target : List String) (c : Bytes) : World :=
  { w with nodes := w.nodes.map (updNode target c) }

theorem updNode_path (target : List String) (c : Bytes) (n : Node) :
    (updNode target c n).path = n.path := by
  unfold updNode
  split
  · split <;> rfl
  · rfl

theorem updNode_isDir (target : List String) (c : Bytes) (n : Node) :
    (updNode target c n).isDir = n.isDir := by
  unfold updNode
  split
  · cases hk : n.kind <;> simp [Node.isDir, hk]
  · rfl

theorem updNode_id (target : List String) (c : Bytes) (n : Node)
    (h : n.path ≠ target) : updNode target c n = n := by
  unfold updNode
  rw [if_neg h]

theorem update_exists (target : List String) (c : Bytes) (w : World) (p : List String) :
    (w.updateFileContent target c).exists_ p = w.exists_ p := by
  unfold World.updateFileContent World.exists_
  rw [List.any_map]
  congr 1
  funext n
  simp [Function.comp, updNode_path]

theorem update_is_dir (target : List String) (c : Bytes) (w : World) (p : List String) :
    (w.updateFileContent target c).is_dir p = w.is_dir p := by
  unfold World.updateFileContent World.is_dir
  rw [List.any_map]
  congr 1
  funext n
  simp [Function.comp, updNode_path, updNode_isDir]

theorem update_childNodes (target : List String) (c : Bytes) (w : World) (p : List String) :
    (w.updateFileContent target c).childNodes p = (w.childNodes p).map (updNode target c) := by
  unfold World.childNodes World.updateFileContent
  rw [List.filter_map]
  congr 1
  apply List.filter_congr
  intro n _
  simp [Function.comp, updNode_path]

/-- A child of directory `p` has a path one component longer than `p`. -/
theorem childNodes_path_length (w : World) (p : List String) (n : Node)
    (hn : n ∈ w.childNodes p) : n.path.length = p.length + 1 := by
  unfold World.childNodes at hn
  have h := List.of_mem_filter hn
  rw [Bool.and_eq_true] at h
  obtain ⟨h1, h2⟩ := h
  have hne : n.path ≠ [] := by
    intro hc
    rw [hc] at h1
    simp at h1
  have hdl : n.path.dropLast = p := by
    rw [← beq_iff_eq (a := n.path.dropLast) (b := p)]
    exact h2
  have h3 := List.length_dropLast n.path
  rw [hdl] at h3
  have h4 : 0 < n.path.length := List.length_pos.mpr hne
  omega

/-- An item directory (as deep as `target`) and everything in it is untouched
by overwriting the file at `target`. -/
theorem update_itemHash (target : List String) (c : Bytes) (ext : PyExt) (w : World)
    (it : Item) (p : List String) (hd : it.directory = some p)
    (hlen : p.length = target.length) :
    itemHash ext (w.updateFileContent target c) it = itemHash ext w it := by
  have hch : (w.updateFileContent target c).childNodes p = w.childNodes p := by
    rw [update_childNodes]
    have hid : ∀ n ∈ w.childNodes p, updNode target c n = n := by
      intro n hn
      apply updNode_id
      intro hc
      have hl := childNodes_path_length w p n hn
      rw [hc] at hl
      omega
    rw [List.map_congr_left hid]
    simp
  simp only [itemHash, hd, World.iterdir, update_is_dir, update_exists, hch]

/-- The items scanned from the dataset directory are unchanged by overwriting
a dataset-level file. -/
theorem update_scanItems (target : List String) (c : Bytes) (ro : Bool) (w : World)
    (p : List String) :
    scanItems ro ((w.updateFileContent target c).childNodes p) =
      scanItems ro (w.childNodes p) := by
  rw [update_childNodes]
  unfold scanItems
  rw [List.filter_map]
  have hpred : ∀ n ∈ w.childNodes p,
      ((fun n => n.isDir && Path.stem n.name != "__pycache__") ∘ updNode target c) n =
      (fun n => n.isDir && Path.stem n.name != "__pycache__") n := by
    intro n _
    simp [Function.comp, updNode_isDir, Node.name, updNode_path]
  rw [List.filter_congr hpred, List.map_map]
  apply List.map_congr_left
  intro n _
  simp [Function.comp, updNode_path]

/-- **C9.**  `calculate_hash` depends only on the files inside the item
directories: overwriting the content of any dataset-level file — the
dataset's `_metadata.json` (its metadata and naming template) or the accessor
stub `__init__.py` — leaves the result completely unchanged, for every dataset
handle whose cached items (if any) are item directories of the dataset. -/
theorem c9_calculate_hash_ignores_dataset_level_files
    (ext : PyExt) (w : World) (d : DataSet) (dsdir : List String) (name : String)
    (c : Bytes) (hd : d.directory = some dsdir)
    (hcache : ∀ it ∈ d.cache, ∃ nm, it.directory = some (dsdir ++ [nm])) :
    DataSet.calculate_hash ext (w.updateFileContent (dsdir ++ [name]) c) d =
      DataSet.calculate_hash ext w d := by
  by_cases hc : d.cache.isEmpty
  case neg =>
    rw [Bool.not_eq_true] at hc
    rw [calculate_hash_of_all_items_ok ext (w.updateFileContent (dsdir ++ [name]) c) d
          d.cache d (all_items_replay _ d hc),
        calculate_hash_of_all_items_ok ext w d d.cache d (all_items_replay w d hc),
        itemHashLoop_congr ext (w.updateFileContent (dsdir ++ [name]) c) w d.cache ?hcongr]
    case hcongr =>
      intro it hit
      obtain ⟨nm, hnm⟩ := hcache it hit
      refine update_itemHash (dsdir ++ [name]) c ext w it _ hnm (by simp)
  case pos =>
    by_cases h1 : w.is_dir dsdir = true
    · have h1' : (w.updateFileContent (dsdir ++ [name]) c).is_dir dsdir = true := by
        rw [update_is_dir]; exact h1
      rw [calculate_hash_of_all_items_ok ext (w.updateFileContent (dsdir ++ [name]) c) d
            _ _ (all_items_scan _ d dsdir hc hd h1'),
          calculate_hash_of_all_items_ok ext w d _ _ (all_items_scan w d dsdir hc hd h1),
          update_scanItems (dsdir ++ [name]) c d.readonly w dsdir,
          itemHashLoop_congr ext (w.updateFileContent (dsdir ++ [name]) c) w _ ?hcongr2]
      case hcongr2 =>
        intro it hit
        obtain ⟨n, hn, hform⟩ := List.mem_map.mp hit
        have hlen2 : n.path.length = dsdir.length + 1 :=
          childNodes_path_length w dsdir n (List.mem_of_mem_filter hn)
        refine update_itemHash (dsdir ++ [name]) c ext w it n.path ?_ (by simp; omega)
        rw [← hform]
    · have h1' : w.is_dir dsdir = false := Bool.not_eq_true _ |>.mp h1
      have h1'' : (w.updateFileContent (dsdir ++ [name]) c).is_dir dsdir = false := by
        rw [update_is_dir]; exact h1'
      rw [calculate_hash_of_all_items_err ext (w.updateFileContent (dsdir ++ [name]) c) d
            _ (all_items_scan_err _ d dsdir hc hd h1''),
          calculate_hash_of_all_items_err ext w d _ (all_items_scan_err w d dsdir hc hd h1'),
          update_exists]

/-- Witness for C9: overwriting `tmp/_metadata.json` leaves the hash of the
dataset `tmp` unchanged. -/
theorem c9_witness :
    DataSet.calculate_hash extA (wA.updateFileContent ["tmp", "_metadata.json"] [42]) dB =
      DataSet.calculate_hash extA wA dB ∧
    DataSet.calculate_hash extA wA dB = .ok ("1a", dB) := by
  constructor
  · exact c9_calculate_hash_ignores_dataset_level_files extA wA dB ["tmp"] "_metadata.json"
      [42] rfl (fun it hit => ⟨"it1", by
        simp only [dB, List.mem_singleton] at hit
        subst hit
        rfl⟩)
  · decide
